import Mathlib

/-!
Verification development for the multi-database query dispatcher
(`mcp_server/tools/db_tools`): a shallow embedding of the query guard,
result formatter, dispatcher, fan-out logic, and configuration tool,
together with theorems settling the specification claims.

Python strings are modelled as Lean `String`s (operations restricted to the
ASCII behaviour shared by both languages); Python dicts are modelled as
association lists in insertion order, with assignment replacing an existing
key in place and appending a fresh key at the end, exactly as CPython dicts
preserve insertion order.  Python exceptions are modelled with `Except`.
-/

namespace MCPDB

/-! ## Python string primitives -/
/-- Python `str.upper()` restricted to ASCII: uppercase every character. -/
def pyUpper (s : String) : String := String.mk (s.toList.map Char.toUpper)

/-- Python `str.lower()` restricted to ASCII: lowercase every character. -/
def pyLower (s : String) : String := String.mk (s.toList.map Char.toLower)

/-- Python whitespace characters stripped by `str.strip()`. -/
def pySpace (c : Char) : Bool :=
  c == ' ' || c == '\t' || c == '\n' || c == '\r' || c == '\x0b' || c == '\x0c'

/-- Python `str.strip()`: drop leading and trailing whitespace. -/
def pyStrip (s : String) : String :=
  String.mk (((s.toList.dropWhile pySpace).reverse.dropWhile pySpace).reverse)

/-- Boolean prefix test on character lists. -/
def prefixOfL : List Char → List Char → Bool
  | [], _ => true
  | _ :: _, [] => false
  | a :: as, b :: bs => a == b && prefixOfL as bs

/-- Boolean contiguous-sublist test on character lists (Python `in` on `str`). -/
def infixOfL (needle : List Char) : List Char → Bool
  | [] => prefixOfL needle []
  | c :: rest => prefixOfL needle (c :: rest) || infixOfL needle rest

/-- Python `needle in hay` for strings. -/
def strContains (hay needle : String) : Bool := infixOfL needle.toList hay.toList

/-- Python `str.startswith` for strings. -/
def strStartsWith (s pre : String) : Bool := prefixOfL pre.toList s.toList

/-- Surround a string with one space on each side, as in the guard's
`f" {pattern} "` / `f" {query_upper} "` padding trick. -/
def spacePad (s : String) : String := " " ++ s ++ " "

/-! ## Word-boundary (token) occurrence, used to state the claims that speak
of "token-bounded" occurrences.  A token occurrence of `pat` is an occurrence
whose neighbouring characters (when they exist) are not identifier
characters. -/
/-- Identifier characters in the SQL/Python sense. -/
def isWordChar (c : Char) : Bool := c.isAlphanum || c == '_'

/-- True when an optional neighbouring character is absent or is not an
identifier character. -/
def boundaryOk : Option Char → Bool
  | Option.none => true
  | some c => !isWordChar c

/-- Scan a character list for a token-bounded occurrence of `pat`;
`prev` is the character immediately before the current position. -/
def tokenFrom (pat : List Char) (prev : Option Char) : List Char → Bool
  | [] => false
  | c :: rest =>
    (boundaryOk prev && prefixOfL pat (c :: rest)
      && boundaryOk ((c :: rest).drop pat.length).head?)
    || tokenFrom pat (some c) rest

/-- Token-bounded containment of `pat` in `text`. -/
def containsTokenB (text pat : String) : Bool :=
  tokenFrom pat.toList Option.none text.toList

/-! ## Query guard (`BaseDatabaseTool._validate_query`, base.py lines 159-184) -/
/-- Forbidden operations, in the order the source lists them. -/
def dangerous_patterns : List String :=
  ["DROP", "DELETE", "TRUNCATE", "INSERT", "UPDATE",
   "CREATE", "ALTER", "GRANT", "REVOKE", "EXEC",
   "EXECUTE", "CALL", "MERGE", "UPSERT"]

/-- Shallow embedding of `BaseDatabaseTool._validate_query`:
`query_upper = query.upper().strip()`; raise on the first pattern `p` with
`f" {p} "` contained in `f" {query_upper} "`; then raise unless `query_upper`
starts with `SELECT` or `WITH`. -/
def validate_query (query : String) : Except String Unit :=
  match dangerous_patterns.find?
      (fun p => strContains (spacePad (pyStrip (pyUpper query))) (spacePad p)) with
  | some p => Except.error ("Query contains forbidden operation: " ++ p)
  | Option.none =>
    if !strStartsWith (pyStrip (pyUpper query)) "SELECT"
        && !strStartsWith (pyStrip (pyUpper query)) "WITH" then
      Except.error "Only SELECT and WITH queries are allowed"
    else
      Except.ok ()

/-- The stripped, uppercased query begins with `SELECT` or `WITH`. -/
def beginsSelectOrWith (q : String) : Bool :=
  strStartsWith (pyStrip (pyUpper q)) "SELECT" || strStartsWith (pyStrip (pyUpper q)) "WITH"

/-- Space-bounded containment of some forbidden operation, exactly as the
source checks it: the pattern surrounded by single spaces occurs in the
stripped uppercased query surrounded by single spaces. -/
def containsForbidden (q : String) : Bool :=
  dangerous_patterns.any
    (fun p => strContains (spacePad (pyStrip (pyUpper q))) (spacePad p))

/-- Token-bounded (word-boundary) containment of some forbidden operation in
the uppercased query, the reading of "token-bounded" used by the claim. -/
def containsForbiddenToken (q : String) : Bool :=
  dangerous_patterns.any (fun p => containsTokenB (pyUpper q) p)

/-! ## Limit injection (`BaseDatabaseTool._apply_limit`, base.py lines 186-204;
`SnowflakeTool._apply_limit`, snowflake.py lines 331-343, is identical) -/
/-- Python `str.rstrip(';')`: remove the maximal trailing run of semicolons. -/
def pyRstripSemi (s : String) : String :=
  String.mk ((s.toList.reverse.dropWhile (fun c => c == ';')).reverse)

/-- Shallow embedding of `_apply_limit`: if `LIMIT` occurs as a substring of
the uppercased query, return the query unchanged; otherwise strip all
trailing semicolons and append the limit clause. -/
def apply_limit (query : String) (limit : Nat) : String :=
  if strContains (pyUpper query) "LIMIT" then query
  else pyRstripSemi query ++ " LIMIT " ++ toString limit

/-- Token-bounded containment of `LIMIT` in the uppercased query. -/
def containsTokenLIMIT (q : String) : Bool := containsTokenB (pyUpper q) "LIMIT"

/-- Decidable equality for `Except`, so that concrete guard outcomes can be
settled by `decide`. -/
instance exceptDecEq {ε α : Type} [DecidableEq ε] [DecidableEq α] :
    DecidableEq (Except ε α)
  | Except.ok a, Except.ok b =>
    if h : a = b then isTrue (by rw [h]) else isFalse (by simp [h])
  | Except.ok _, Except.error _ => isFalse (by simp)
  | Except.error _, Except.ok _ => isFalse (by simp)
  | Except.error e, Except.error f =>
    if h : e = f then isTrue (by rw [h]) else isFalse (by simp [h])

/-! ## Data model: Python values, rows and dicts

A row returned by an adapter is a Python dict from column name to value.
Dicts are association lists in insertion order: assignment to an existing
key replaces its value in place, assignment to a fresh key appends. -/
/-- Python scalar values appearing in rows and configuration dicts. -/
inductive PyVal where
  | str : String → PyVal
  | int : Int → PyVal
  | none : PyVal
deriving DecidableEq

/-- A row: ordered mapping from field name to value. -/
abbrev Row := List (String × PyVal)

/-- Python `d.get(key)` on an association list: first binding wins. -/
def alistGet {α : Type} : List (String × α) → String → Option α
  | [], _ => Option.none
  | (k, v) :: rest, key => if k == key then some v else alistGet rest key

/-- Python `d[key] = v`: replace in place if the key exists, else append. -/
def alistSet {α : Type} : List (String × α) → String → α → List (String × α)
  | [], key, v => [(key, v)]
  | (k, w) :: rest, key, v =>
    if k == key then (k, v) :: rest else (k, w) :: alistSet rest key v

/-- Python `del d[key]`: remove the first binding of the key. -/
def alistDel {α : Type} : List (String × α) → String → List (String × α)
  | [], _ => []
  | (k, w) :: rest, key => if k == key then rest else (k, w) :: alistDel rest key

/-- Python `str(v)` for row values (used by the ASCII table renderer, where a
present `None` prints as `None`). -/
def pyStr : PyVal → String
  | PyVal.str s => s
  | PyVal.int i => toString i
  | PyVal.none => "None"

/-- Value rendering of the `csv` writer: `None` is written as the empty
field, any other value by its string form. -/
def csvStr : PyVal → String
  | PyVal.none => ""
  | v => pyStr v

/-! ## Result formatter (`BaseDatabaseTool._format_results` and
`_create_ascii_table`, base.py lines 206-285) -/
/-- Formatted results: the row list itself for `json` (and for unrecognized
formats), rendered text for `csv` and `table`. -/
inductive Formatted where
  | rows : List Row → Formatted
  | text : String → Formatted
deriving DecidableEq

/-- Quote one delimited-text field as `csv.writer` does with minimal quoting:
quote when the field contains the delimiter, the quote character or a line
terminator character, doubling embedded quote characters. -/
def csvQuoteField (s : String) : String :=
  if s.toList.any (fun c => c == ',' || c == '"' || c == '\r' || c == '\n') then
    "\"" ++ String.mk (s.toList.flatMap (fun c => if c == '"' then ['"', '"'] else [c])) ++ "\""
  else s

/-- One delimited-text line with the default `\r\n` terminator. -/
def csvLine (fields : List String) : String :=
  String.intercalate "," fields ++ "\r\n"

/-- The `csv.DictWriter` rendering: a header line of column names, then one
line per row with the value at each column (`None`, in particular a missing
key, rendered as an empty field).  Rows produced by the adapters use exactly
the cursor's columns as keys, which is the supported shape. -/
def csvRender (rows : List Row) (columns : List String) : String :=
  csvLine (columns.map csvQuoteField) ++
    String.join (rows.map (fun r =>
      csvLine (columns.map (fun c =>
        csvQuoteField (csvStr ((alistGet r c).getD PyVal.none))))))

/-- Python `str(row.get(col, ''))`: missing keys print as the empty string,
a present `None` prints as `None`. -/
def cellStr (r : Row) (c : String) : String :=
  match alistGet r c with
  | some v => pyStr v
  | Option.none => ""

/-- Column display width: the maximum of the header length and every value's
string length, exactly as `_create_ascii_table` computes it. -/
def colWidth (rows : List Row) (c : String) : Nat :=
  rows.foldl (fun w r => max w (cellStr r c).length) c.length

/-- Python `str.ljust`: pad on the right with spaces up to the width. -/
def pyLjust (s : String) (w : Nat) : String :=
  s ++ String.mk (List.replicate (w - s.length) ' ')

/-- Shallow embedding of `_create_ascii_table`. -/
def create_ascii_table (rows : List Row) (columns : List String) : String :=
  if rows.isEmpty then "No results found."
  else
    String.intercalate "\n"
      ([ "+-" ++ String.intercalate "-+-"
            (columns.map (fun c => String.mk (List.replicate (colWidth rows c) '-'))) ++ "-+",
         "| " ++ String.intercalate " | "
            (columns.map (fun c => pyLjust c (colWidth rows c))) ++ " |",
         "+-" ++ String.intercalate "-+-"
            (columns.map (fun c => String.mk (List.replicate (colWidth rows c) '-'))) ++ "-+" ]
       ++ rows.map (fun r =>
            "| " ++ String.intercalate " | "
              (columns.map (fun c => pyLjust (cellStr r c) (colWidth rows c))) ++ " |")
       ++ [ "+-" ++ String.intercalate "-+-"
            (columns.map (fun c => String.mk (List.replicate (colWidth rows c) '-'))) ++ "-+" ])

/-- Shallow embedding of `BaseDatabaseTool._format_results`: `json` returns
the rows unchanged; `csv` returns empty text for zero rows and the delimited
rendering otherwise; `table` returns `No results found.` for zero rows and
the ASCII table otherwise; any other format falls through to the rows. -/
def format_results (rows : List Row) (columns : List String) (format : String) : Formatted :=
  if format == "json" then Formatted.rows rows
  else if format == "csv" then
    if rows.isEmpty then Formatted.text "" else Formatted.text (csvRender rows columns)
  else if format == "table" then
    if rows.isEmpty then Formatted.text "No results found."
    else Formatted.text (create_ascii_table rows columns)
  else Formatted.rows rows

/-! ## Adapter execute (`BaseDatabaseTool.execute`, base.py lines 110-157, and
`SnowflakeTool.execute`, snowflake.py lines 177-232)

The backend itself (connection plus `execute_query`) is abstracted as an
oracle: `connectOk` is the outcome of the lazy `connect()` call and
`runQuery` maps the (rewritten) query text to the backend's raw rows and
column names.  Wall-clock execution time is not modelled. -/
/-- Raw backend outcome: rows as dicts plus the ordered column names. -/
structure QueryOutcome where
  rows : List Row
  columns : List String
deriving DecidableEq

/-- The standardized result dict built by `BaseDatabaseTool.execute` (the
`execution_time_seconds` field is not modelled). -/
structure BaseResult where
  query : String
  row_count : Nat
  columns : List String
  results : Formatted
  database_type : String
  limit_applied : Nat
  format : String
deriving DecidableEq

/-- Shallow embedding of `BaseDatabaseTool.execute`: ensure connection,
validate, apply the limit, run the backend, format; any failure is re-raised
as `DatabaseQueryError` with the `Query execution failed: ` prefix. -/
def baseExecute (connectOk : Except String Unit)
    (runQuery : String → Except String QueryOutcome)
    (dbtype : String) (query : String) (limit : Nat) (format : String) :
    Except String BaseResult :=
  match connectOk with
  | Except.error e => Except.error ("Query execution failed: " ++ e)
  | Except.ok () =>
    match validate_query query with
    | Except.error e => Except.error ("Query execution failed: " ++ e)
    | Except.ok () =>
      match runQuery (apply_limit query limit) with
      | Except.error e => Except.error ("Query execution failed: " ++ e)
      | Except.ok out =>
        Except.ok
          { query := apply_limit query limit
            row_count := out.rows.length
            columns := out.columns
            results := format_results out.rows out.columns format
            database_type := dbtype
            limit_applied := limit
            format := format }

/-- The result dict built by `SnowflakeTool.execute`, whose metadata
additionally records the warehouse override and the cache flag. -/
structure SnowflakeResult where
  base : BaseResult
  warehouse : Option String
  cached_result : Bool
deriving DecidableEq

/-- Shallow embedding of `SnowflakeTool.execute`: identical control flow to
the base tool, with the Snowflake-specific parameters passed through to the
backend oracle and recorded in the metadata. -/
def snowflakeExecute (connectOk : Except String Unit)
    (runQuery : String → Nat → Option String → Bool → Except String QueryOutcome)
    (query : String) (limit : Nat) (format : String) (timeout : Nat)
    (warehouse : Option String) (useCached : Bool) :
    Except String SnowflakeResult :=
  match connectOk with
  | Except.error e => Except.error ("Query execution failed: " ++ e)
  | Except.ok () =>
    match validate_query query with
    | Except.error e => Except.error ("Query execution failed: " ++ e)
    | Except.ok () =>
      match runQuery (apply_limit query limit) timeout warehouse useCached with
      | Except.error e => Except.error ("Query execution failed: " ++ e)
      | Except.ok out =>
        Except.ok
          { base :=
              { query := apply_limit query limit
                row_count := out.rows.length
                columns := out.columns
                results := format_results out.rows out.columns format
                database_type := "snowflake"
                limit_applied := limit
                format := format }
            warehouse := warehouse
            cached_result := useCached }

/-- A concrete backend oracle returning one row, for the C7 witness. -/
def oneRowBackend : String → Except String QueryOutcome :=
  fun _ => Except.ok { rows := [[("one", PyVal.int 1)]], columns := ["one"] }

/-! ## Dispatcher (`DatabaseManagerTool.execute`, manager.py lines 125-167)

The registry is the ordered list of configured connection names; the
per-connection adapter execution (including the Snowflake-specific extra
parameters the dispatcher forwards) is abstracted as an oracle from the
connection name and the request to the adapter's result, and `toolName`
gives each adapter's `name` attribute (its backend label). -/
/-- Errors raised by the dispatcher. -/
inductive ManagerError where
  | connectionError : String → ManagerError
  | queryError : String → ManagerError
deriving DecidableEq

/-- Python `str(e)` for a dispatcher error. -/
def errStr : ManagerError → String
  | ManagerError.connectionError m => m
  | ManagerError.queryError m => m

/-- An adapter result with the connection metadata the dispatcher attaches. -/
structure ManagerResult where
  base : BaseResult
  connection_name : String
  connection_type : String
deriving DecidableEq

/-- Shallow embedding of `DatabaseManagerTool.execute`: raise
`DatabaseConnectionError` for an unknown connection name before touching any
adapter; otherwise run the resolved adapter and re-raise any failure as
`DatabaseQueryError` whose message names the connection. -/
def managerExecute (connections : List String)
    (adapterRun : String → String → Nat → String → Nat → Except String BaseResult)
    (toolName : String → String)
    (connection_name query : String) (limit : Nat) (format : String) (timeout : Nat) :
    Except ManagerError ManagerResult :=
  if connections.contains connection_name then
    match adapterRun connection_name query limit format timeout with
    | Except.error e =>
      Except.error (ManagerError.queryError
        ("Query failed on " ++ connection_name ++ ": " ++ e))
    | Except.ok r =>
      Except.ok { base := r, connection_name := connection_name,
                  connection_type := toolName connection_name }
  else
    Except.error (ManagerError.connectionError ("Unknown connection: " ++ connection_name))

/-! ## Cross-database fan-out
(`DatabaseManagerTool.execute_cross_database_query`, manager.py lines 283-332)

Each query specification carries optional `limit` (default 100) and `format`
(default `json`) fields.  The loop keys each outcome by
`query_<1-based index>_<connection name>`, records an error entry and keeps
going when a spec fails, and under `combine_results` tags each successful
json row in place with its source connection and 1-based query index — the
tags are written into the very row dicts referenced by that sub-query's own
stored result, so the per-query entry holds the tagged rows too. -/
/-- One per-connection query specification of a fan-out request. -/
structure QuerySpec where
  connection_name : String
  query : String
  limit : Option Nat
  format : Option String
deriving DecidableEq

/-- An entry of the fan-out result map: a successful per-query result, a
per-query error record, or the synthetic combined entry. -/
inductive CrossEntry where
  | ok : ManagerResult → CrossEntry
  | err : String → CrossEntry
  | combined : Nat → List Row → CrossEntry
deriving DecidableEq

/-- The row list behind a `json`-formatted result (`result.get('results')`;
json formatting always produces the row list). -/
def getJsonRows : Formatted → List Row
  | Formatted.rows rs => rs
  | Formatted.text _ => []

/-- In-place tagging of one row: `row['_source_connection'] = name` then
`row['_source_query'] = qidx`. -/
def tagRow (name : String) (qidx : Nat) (row : Row) : Row :=
  alistSet (alistSet row "_source_connection" (PyVal.str name))
    "_source_query" (PyVal.int qidx)

/-- The generated per-query key `query_<i+1>_<connection name>`. -/
def crossKey (i : Nat) (name : String) : String :=
  "query_" ++ toString (i + 1) ++ "_" ++ name

/-- A stored per-query result after its shared row list was tagged in
place. -/
def withTaggedResults (r : ManagerResult) (tagged : List Row) : ManagerResult :=
  { r with base := { r.base with results := Formatted.rows tagged } }

/-- One iteration of the fan-out loop at 0-based index `i`: the keyed entry
recorded for the spec and the rows it contributes to the combined set. -/
def crossStep (connections : List String)
    (adapterRun : String → String → Nat → String → Nat → Except String BaseResult)
    (toolName : String → String) (combine : Bool) (i : Nat) (spec : QuerySpec) :
    (String × CrossEntry) × List Row :=
  match managerExecute connections adapterRun toolName spec.connection_name spec.query
      (spec.limit.getD 100) (spec.format.getD "json") 30 with
  | Except.error e => ((crossKey i spec.connection_name, CrossEntry.err (errStr e)), [])
  | Except.ok r =>
    if combine && (spec.format.getD "json") == "json" then
      ((crossKey i spec.connection_name,
        CrossEntry.ok (withTaggedResults r
          ((getJsonRows r.base.results).map (tagRow spec.connection_name (i + 1))))),
       (getJsonRows r.base.results).map (tagRow spec.connection_name (i + 1)))
    else
      ((crossKey i spec.connection_name, CrossEntry.ok r), [])

/-- The fan-out loop over the remaining specs, accumulating keyed entries in
input order and the combined row data. -/
def crossAux (connections : List String)
    (adapterRun : String → String → Nat → String → Nat → Except String BaseResult)
    (toolName : String → String) (combine : Bool) :
    Nat → List QuerySpec → List (String × CrossEntry) × List Row
  | _, [] => ([], [])
  | i, spec :: rest =>
    ((crossStep connections adapterRun toolName combine i spec).1 ::
        (crossAux connections adapterRun toolName combine (i + 1) rest).1,
      (crossStep connections adapterRun toolName combine i spec).2 ++
        (crossAux connections adapterRun toolName combine (i + 1) rest).2)

/-- Shallow embedding of `execute_cross_database_query`: run every spec in
input order, then append the `combined_results` entry when requested. -/
def execute_cross_database_query (connections : List String)
    (adapterRun : String → String → Nat → String → Nat → Except String BaseResult)
    (toolName : String → String)
    (queries : List QuerySpec) (combine_results : Bool) : List (String × CrossEntry) :=
  (crossAux connections adapterRun toolName combine_results 0 queries).1 ++
    (if combine_results then
      [("combined_results",
        CrossEntry.combined
          (crossAux connections adapterRun toolName combine_results 0 queries).2.length
          (crossAux connections adapterRun toolName combine_results 0 queries).2)]
    else [])

/-- Pair every element with its 0-based position starting at `i`. -/
def enumFrom {α : Type} : Nat → List α → List (Nat × α)
  | _, [] => []
  | i, a :: l => (i, a) :: enumFrom (i + 1) l

/-! Concrete fan-out scenario used by the witnesses: connection `A` serves
one json row, connection `B` fails, as in the fan-out determinism example. -/
/-- The single raw row served by connection `A`. -/
def cRowA : Row := [("one", PyVal.int 1)]

/-- The adapter result behind connection `A`. -/
def cBaseA : BaseResult :=
  { query := "SELECT 1 LIMIT 100", row_count := 1, columns := ["one"],
    results := Formatted.rows [cRowA], database_type := "sqlite",
    limit_applied := 100, format := "json" }

/-- Adapter oracle: `A` succeeds with one row, everything else fails. -/
def cAdapterRun : String → String → Nat → String → Nat → Except String BaseResult :=
  fun name _ _ _ _ => if name == "A" then Except.ok cBaseA else Except.error "bad sql"

/-- Tool-name oracle for the scenario. -/
def cToolName : String → String := fun _ => "sqlite"

/-- Registered connections of the scenario. -/
def cConns : List String := ["A", "B"]

/-- Fan-out spec querying connection `A`. -/
def cSpecA : QuerySpec :=
  { connection_name := "A", query := "SELECT 1", limit := Option.none, format := some "json" }

/-- Fan-out spec querying connection `B` with a failing query. -/
def cSpecB : QuerySpec :=
  { connection_name := "B", query := "bad sql", limit := Option.none, format := some "json" }

/-- Dispatcher result for spec `A` in the scenario. -/
def cMgrA : ManagerResult :=
  { base := cBaseA, connection_name := "A", connection_type := "sqlite" }

/-! ## Configuration tool
(`DatabaseConfigTool`, config.py)

A connection descriptor is an ordered dict of settings; the store maps
connection names to descriptors. -/
/-- A connection descriptor. -/
abbrev Config := List (String × PyVal)

/-- The secret-bearing keys redacted by `_list_connections`
(config.py line 201). -/
def sensitive_keys : List String := ["password", "private_key", "private_key_passphrase"]

/-- Copy a descriptor and overwrite each present secret-bearing field with
the redaction placeholder, as the loop over `sensitive_keys` does. -/
def redactConfig (c : Config) : Config :=
  c.map (fun kv =>
    if sensitive_keys.contains kv.1 then (kv.1, PyVal.str "***hidden***") else kv)

/-- The value returned by `_list_connections`. -/
structure ListResult where
  total_connections : Nat
  connections : List (String × Config)
deriving DecidableEq

/-- Shallow embedding of `DatabaseConfigTool._list_connections`
(config.py lines 194-210). -/
def list_connections (store : List (String × Config)) : ListResult :=
  { total_connections := (store.map (fun nc => (nc.1, redactConfig nc.2))).length
    connections := store.map (fun nc => (nc.1, redactConfig nc.2)) }

/-- Every string literally present in a value. -/
def valStrings : PyVal → List String
  | PyVal.str s => [s]
  | _ => []

/-- Every string literally present in a descriptor (keys and values). -/
def configStrings (c : Config) : List String :=
  c.flatMap (fun kv => kv.1 :: valStrings kv.2)

/-- Every string literally present in a `list_connections` output. -/
def outputStrings (r : ListResult) : List String :=
  r.connections.flatMap (fun nc => nc.1 :: configStrings nc.2)

/-- The output contains `s` somewhere: `s` occurs as a substring of some
name, key or value of the output. -/
def outputContains (r : ListResult) (s : String) : Bool :=
  (outputStrings r).any (fun t => strContains t s)

/-- Two descriptors that differ at most in the values of secret-bearing
fields: same length, same keys in order, equal values at every non-secret
key. -/
def secretsOnlyDiffer (c1 c2 : Config) : Prop :=
  c1.length = c2.length ∧
  ∀ p ∈ c1.zip c2, p.1.1 = p.2.1 ∧
    (sensitive_keys.contains p.1.1 = false → p.1.2 = p.2.2)

/-- Two stores that differ at most in the values of secret-bearing fields of
their descriptors. -/
def storesDifferOnlyInSecrets (s1 s2 : List (String × Config)) : Prop :=
  s1.length = s2.length ∧
  ∀ p ∈ s1.zip s2, p.1.1 = p.2.1 ∧ secretsOnlyDiffer p.1.2 p.2.2

/-! ## Config-mutating operations
(`DatabaseConfigTool._add_connection` lines 222-259,
`_remove_connection` lines 261-287, `_update_connection` lines 289-320)

The dispatcher rebuild (`DatabaseManagerTool(self.database_configs)`) is
abstracted as an oracle from the descriptor store to the rebuilt manager;
the live manager is modelled by its connection set.  File persistence
(`_save_to_file`) is outside the in-memory state and not modelled. -/
/-- A structured `{status, message}` action result. -/
structure ActionResult where
  status : String
  message : String
deriving DecidableEq

/-- In-memory state of the configuration tool: the descriptor store and the
current manager (its connection set), `none` when no manager exists. -/
structure ConfigState where
  database_configs : List (String × Config)
  manager : Option (List String)
deriving DecidableEq

/-- Shallow embedding of `_add_connection`: reject an existing name or a
missing `database_type`; otherwise insert, rebuild, and on rebuild failure
delete the inserted entry again (rollback) and report the error. -/
def add_connection (rebuild : List (String × Config) → Except String (List String))
    (st : ConfigState) (name : String) (config : Config) : ConfigState × ActionResult :=
  if (alistGet st.database_configs name).isSome then
    (st, { status := "error",
           message := "Connection " ++ name
             ++ " already exists. Use update_connection to modify it." })
  else if (alistGet config "database_type").isNone then
    (st, { status := "error", message := "Missing required field: database_type" })
  else
    match rebuild (alistSet st.database_configs name config) with
    | Except.error e =>
      ({ st with database_configs := alistDel (alistSet st.database_configs name config) name },
       { status := "error", message := "Failed to create connection: " ++ e })
    | Except.ok m =>
      ({ database_configs := alistSet st.database_configs name config, manager := some m },
       { status := "success", message := "Connection " ++ name ++ " added successfully" })

/-- Shallow embedding of `_remove_connection`: reject an unknown name;
otherwise delete the entry; when entries remain, try to rebuild, and on
rebuild failure only log — the deletion is kept, the old manager object
stays in place, and the operation still reports success. -/
def remove_connection (rebuild : List (String × Config) → Except String (List String))
    (st : ConfigState) (name : String) : ConfigState × ActionResult :=
  if (alistGet st.database_configs name).isNone then
    (st, { status := "error", message := "Connection " ++ name ++ " not found" })
  else if (alistDel st.database_configs name).isEmpty then
    ({ database_configs := alistDel st.database_configs name, manager := Option.none },
     { status := "success", message := "Connection " ++ name ++ " removed successfully" })
  else
    match rebuild (alistDel st.database_configs name) with
    | Except.error _ =>
      ({ database_configs := alistDel st.database_configs name, manager := st.manager },
       { status := "success", message := "Connection " ++ name ++ " removed successfully" })
    | Except.ok m =>
      ({ database_configs := alistDel st.database_configs name, manager := some m },
       { status := "success", message := "Connection " ++ name ++ " removed successfully" })

/-- Python `old.update(config)`: write every overlay item into the base
descriptor, in overlay order. -/
def dictUpdate (base overlay : Config) : Config :=
  overlay.foldl (fun acc kv => alistSet acc kv.1 kv.2) base

/-- Shallow embedding of `_update_connection`: reject an unknown name;
otherwise merge the partial config into a copy of the old descriptor,
rebuild, and on rebuild failure write the old descriptor back (rollback)
and report the error. -/
def update_connection (rebuild : List (String × Config) → Except String (List String))
    (st : ConfigState) (name : String) (config : Config) : ConfigState × ActionResult :=
  match alistGet st.database_configs name with
  | Option.none =>
    (st, { status := "error",
           message := "Connection " ++ name ++ " not found. Use add_connection to create it." })
  | some old =>
    match rebuild (alistSet st.database_configs name (dictUpdate old config)) with
    | Except.error e =>
      ({ st with database_configs :=
          alistSet (alistSet st.database_configs name (dictUpdate old config)) name old },
       { status := "error", message := "Failed to update connection: " ++ e })
    | Except.ok m =>
      ({ database_configs := alistSet st.database_configs name (dictUpdate old config),
         manager := some m },
       { status := "success", message := "Connection " ++ name ++ " updated successfully" })

/-! ## Claim C4: rollback on rebuild failure -/
/-- A rebuild oracle that always fails, for the C4 counterexample and
witness. -/
def cBadRebuild : List (String × Config) → Except String (List String) :=
  fun _ => Except.error "boom"

/-- A two-connection store for the C4 counterexample and witness. -/
def cStore2 : ConfigState :=
  { database_configs :=
      [("x", [("database_type", PyVal.str "sqlite")]),
       ("y", [("database_type", PyVal.str "mysql")])],
    manager := some ["x", "y"] }

/-! ## Environment loader (`DatabaseConfigTool._load_from_environment`,
config.py lines 97-125) -/
/-- Strip Python whitespace from both ends of a character list. -/
def pyStripL (l : List Char) : List Char :=
  ((l.dropWhile pySpace).reverse.dropWhile pySpace).reverse

/-- Decimal value of a digit run; `none` when empty or non-digit. -/
def digitsVal (cs : List Char) : Option Nat :=
  if cs.isEmpty then Option.none
  else
    cs.foldl
      (fun acc c =>
        match acc with
        | Option.none => Option.none
        | some n => if c.isDigit then some (n * 10 + (c.toNat - 48)) else Option.none)
      (some 0)

/-- Python `int(value)` on ASCII inputs: strip whitespace, allow one sign,
then a non-empty digit run; `none` models `ValueError`.  (CPython also
accepts digit-grouping underscores, which no configuration value here
uses.) -/
def pyIntParse (s : String) : Option Int :=
  match pyStripL s.toList with
  | '-' :: ds => (digitsVal ds).map (fun n => -(n : Int))
  | '+' :: ds => (digitsVal ds).map (fun n => (n : Int))
  | ds => (digitsVal ds).map (fun n => (n : Int))

/-- Python `key.split('_')` on character lists (empty parts preserved). -/
def splitUnderscoreL : List Char → List (List Char)
  | [] => [[]]
  | c :: rest =>
    if c == '_' then [] :: splitUnderscoreL rest
    else
      match splitUnderscoreL rest with
      | [] => [[c]]
      | g :: gs => (c :: g) :: gs

/-- Python `key.split('_')` for strings. -/
def pySplitUnderscore (s : String) : List String :=
  (splitUnderscoreL s.toList).map String.mk

/-- Python `'_'.join(parts)`. -/
def joinUnderscore : List String → String
  | [] => ""
  | [s] => s
  | s :: rest => s ++ "_" ++ joinUnderscore rest

/-- The stored value for one environment setting: only the `port` setting is
coerced to an integer, and only when it parses; every other value stays a
string. -/
def envValue (setting : String) (value : String) : PyVal :=
  if setting == "port" then
    match pyIntParse value with
    | some n => PyVal.int n
    | Option.none => PyVal.str value
  else PyVal.str value

/-- One iteration of the environment scan: keys starting with `DB_` and
splitting into at least three `_`-separated parts contribute
`db_vars[parts[1].lower()]['_'.join(parts[2:]).lower()] = value`; every
other key is ignored. -/
def envStep (dbVars : List (String × Config)) (kv : String × String) :
    List (String × Config) :=
  if strStartsWith kv.1 "DB_" then
    match pySplitUnderscore kv.1 with
    | _ :: p1 :: s1 :: srest =>
      alistSet dbVars (pyLower p1)
        (alistSet ((alistGet dbVars (pyLower p1)).getD [])
          (pyLower (joinUnderscore (s1 :: srest)))
          (envValue (pyLower (joinUnderscore (s1 :: srest))) kv.2))
    | _ => dbVars
  else dbVars

/-- Shallow embedding of `_load_from_environment`: group the `DB_`-prefixed
environment entries, then keep exactly the groups carrying a
`database_type` setting. -/
def load_from_environment (env : List (String × String)) : List (String × Config) :=
  (env.foldl envStep []).filter (fun nc => (alistGet nc.2 "database_type").isSome)

/-- The typing discipline of one loaded field: non-`port` settings hold
strings, the `port` setting holds an integer exactly when some string parses
to it, and an unparseable string otherwise. -/
def goodField (kv : String × PyVal) : Prop :=
  (kv.1 ≠ "port" → ∃ s, kv.2 = PyVal.str s) ∧
  (kv.1 = "port" →
    (∃ n, kv.2 = PyVal.int n ∧ ∃ s, pyIntParse s = some n) ∨
    (∃ s, kv.2 = PyVal.str s ∧ pyIntParse s = Option.none))

/-- Every field of the descriptor obeys the typing discipline. -/
def goodConfig (c : Config) : Prop := ∀ kv ∈ c, goodField kv

/-- Every grouped descriptor obeys the typing discipline. -/
def goodVars (l : List (String × Config)) : Prop := ∀ nc ∈ l, goodConfig nc.2

/-- The loaded group of the C8 witness environment. -/
def cPortConfig : Config :=
  [("database_type", PyVal.str "sqlite"), ("port", PyVal.int 5432)]

/-! ## Helper lemmas about token and substring containment -/
theorem tokenFrom_infixOfL (pat : List Char) (l : List Char) :
    ∀ prev, tokenFrom pat prev l = true → infixOfL pat l = true := by
  induction l with
  | nil => intro prev h; simp [tokenFrom] at h
  | cons c rest ih =>
    intro prev h
    rw [tokenFrom, Bool.or_eq_true] at h
    rcases h with h | h
    · rw [Bool.and_eq_true, Bool.and_eq_true] at h
      rw [infixOfL, Bool.or_eq_true]
      exact Or.inl h.1.2
    · rw [infixOfL, Bool.or_eq_true]
      exact Or.inr (ih (some c) h)

theorem containsTokenB_strContains (text pat : String)
    (h : containsTokenB text pat = true) : strContains text pat = true :=
  tokenFrom_infixOfL pat.toList text.toList Option.none h

/-! ## Claim C1: the query guard -/
theorem validate_query_total (q : String) :
    validate_query q = Except.ok () ∨ ∃ e, validate_query q = Except.error e := by
  cases h : validate_query q with
  | ok u => cases u; exact Or.inl rfl
  | error e => exact Or.inr ⟨e, rfl⟩

theorem validate_query_ok_iff (q : String) :
    validate_query q = Except.ok () ↔
      (containsForbidden q = false ∧ beginsSelectOrWith q = true) := by
  unfold validate_query containsForbidden beginsSelectOrWith
  cases hf : dangerous_patterns.find?
      (fun p => strContains (spacePad (pyStrip (pyUpper q))) (spacePad p)) with
  | some p =>
    constructor
    · intro h; exact absurd h (by simp)
    · rintro ⟨hno, -⟩
      rw [List.any_eq_false] at hno
      exact absurd (List.find?_some hf)
        (by simpa using hno p (List.mem_of_find?_eq_some hf))
  | none =>
    have hany : dangerous_patterns.any
        (fun p => strContains (spacePad (pyStrip (pyUpper q))) (spacePad p)) = false := by
      rw [List.any_eq_false]
      intro p hp
      simpa using List.find?_eq_none.mp hf p hp
    rw [hany]
    cases hs : strStartsWith (pyStrip (pyUpper q)) "SELECT" <;>
      cases hw : strStartsWith (pyStrip (pyUpper q)) "WITH" <;> simp

/-- C1 counterexample: in `SELECT 1;DROP TABLE X` the forbidden operation
`DROP` occurs token-bounded (between `;` and a space, neither an identifier
character), yet `validate_query` accepts the text, because the source only
detects occurrences bounded by spaces on both sides. -/
theorem validate_tokenbounded_counterexample :
    containsForbiddenToken "SELECT 1;DROP TABLE X" = true ∧
    validate_query "SELECT 1;DROP TABLE X" = Except.ok () := by decide

/-- C1 (amended): with the forbidden-operation check read as the source's
space-bounded containment (the pattern surrounded by single spaces inside the
stripped uppercased query padded with one space at each end): every query not
beginning with SELECT or WITH (after stripping, case-insensitively) is
rejected; every query beginning with SELECT or WITH and free of space-bounded
forbidden operations is accepted; every query containing a space-bounded
forbidden operation is rejected. -/
theorem validate_characterization (q : String) :
    (beginsSelectOrWith q = false → ∃ e, validate_query q = Except.error e) ∧
    (beginsSelectOrWith q = true ∧ containsForbidden q = false →
        validate_query q = Except.ok ()) ∧
    (containsForbidden q = true → ∃ e, validate_query q = Except.error e) := by
  refine ⟨?_, ?_, ?_⟩
  · intro hb
    rcases validate_query_total q with h | h
    · rw [validate_query_ok_iff] at h
      rw [hb] at h
      exact absurd h.2 (by simp)
    · exact h
  · rintro ⟨hb, hc⟩
    exact (validate_query_ok_iff q).mpr ⟨hc, hb⟩
  · intro hc
    rcases validate_query_total q with h | h
    · rw [validate_query_ok_iff] at h
      rw [hc] at h
      exact absurd h.1 (by simp)
    · exact h

/-- C1 witness: a plain SELECT query satisfies both hypotheses of the accept
branch and is accepted. -/
theorem validate_characterization_witness :
    validate_query "SELECT * FROM t" = Except.ok () :=
  (validate_characterization "SELECT * FROM t").2.1 ⟨by decide, by decide⟩

/-! ## Claim C2: limit injection -/
/-- C2 counterexample: `SELECT unlimited FROM t` contains no token `LIMIT`
(the occurrence inside `unlimited` is identifier-bounded), yet the source
returns it unchanged because it checks plain substring containment; and on
`SELECT 1;;` the source removes both trailing terminators, not exactly one,
so the result differs from the claimed `SELECT 1; LIMIT 5`. -/
theorem apply_limit_token_counterexample :
    (containsTokenLIMIT "SELECT unlimited FROM t" = false ∧
      apply_limit "SELECT unlimited FROM t" 5 = "SELECT unlimited FROM t" ∧
      apply_limit "SELECT unlimited FROM t" 5 ≠ "SELECT unlimited FROM t LIMIT 5") ∧
    (containsTokenLIMIT "SELECT 1;;" = false ∧
      strContains (pyUpper "SELECT 1;;") "LIMIT" = false ∧
      apply_limit "SELECT 1;;" 5 = "SELECT 1 LIMIT 5" ∧
      apply_limit "SELECT 1;;" 5 ≠ "SELECT 1; LIMIT 5") := by decide

theorem toList_pyRstripSemi (q : String) :
    (pyRstripSemi q).toList = (q.toList.reverse.dropWhile (fun c => c == ';')).reverse := rfl

/-- C2 (amended): if the uppercased query contains `LIMIT` as a substring
(in particular whenever it contains it as a token), `apply_limit` returns the
input byte-identical; otherwise the result is the input with its entire
maximal trailing run of `;` characters removed (possibly more than one),
followed by a space and the limit clause. -/
theorem apply_limit_characterization (q : String) (n : Nat) :
    (containsTokenLIMIT q = true → apply_limit q n = q) ∧
    (strContains (pyUpper q) "LIMIT" = true → apply_limit q n = q) ∧
    (strContains (pyUpper q) "LIMIT" = false →
      apply_limit q n = pyRstripSemi q ++ " LIMIT " ++ toString n ∧
      ∃ k, q.toList = (pyRstripSemi q).toList ++ List.replicate k ';') := by
  refine ⟨?_, ?_, ?_⟩
  · intro h
    have hs := containsTokenB_strContains (pyUpper q) "LIMIT" h
    simp [apply_limit, hs]
  · intro h
    simp [apply_limit, h]
  · intro h
    refine ⟨by simp [apply_limit, h], ?_⟩
    refine ⟨(q.toList.reverse.takeWhile (fun c => c == ';')).length, ?_⟩
    rw [toList_pyRstripSemi]
    have hsplit : q.toList.reverse.takeWhile (fun c => c == ';') ++
        q.toList.reverse.dropWhile (fun c => c == ';') = q.toList.reverse :=
      List.takeWhile_append_dropWhile (fun c => c == ';') q.toList.reverse
    have hall : ∀ b ∈ q.toList.reverse.takeWhile (fun c => c == ';'), b = ';' := by
      intro b hb
      simpa using List.mem_takeWhile_imp hb
    have hall2 : ∀ b ∈ (q.toList.reverse.takeWhile (fun c => c == ';')).reverse, b = ';' := by
      intro b hb
      exact hall b (List.mem_reverse.mp hb)
    have hrev := List.eq_replicate_of_mem hall2
    rw [List.length_reverse] at hrev
    conv_lhs => rw [← List.reverse_reverse q.toList, ← hsplit]
    rw [List.reverse_append, hrev]

/-- C2 witness: a query with one trailing terminator and no `LIMIT` gets the
terminator run stripped and the clause appended. -/
theorem apply_limit_characterization_witness :
    apply_limit "SELECT a FROM t;" 7 =
        pyRstripSemi "SELECT a FROM t;" ++ " LIMIT " ++ toString 7 ∧
    ∃ k, ("SELECT a FROM t;" : String).toList =
        (pyRstripSemi "SELECT a FROM t;").toList ++ List.replicate k ';' :=
  (apply_limit_characterization "SELECT a FROM t;" 7).2.2 (by decide)

/-! ## Claim C9: formatting an empty row list -/
/-- C9: for every column list, formatting zero rows yields exactly
`No results found.` under `table`, exactly the empty string under `csv`, and
the empty row sequence unchanged under `json`. -/
theorem format_results_empty (columns : List String) :
    format_results [] columns "table" = Formatted.text "No results found." ∧
    format_results [] columns "csv" = Formatted.text "" ∧
    format_results [] columns "json" = Formatted.rows [] := by
  refine ⟨?_, ?_, ?_⟩ <;> rfl

/-! ## Claim C7: row count equals the raw row count -/
/-- C7: for every successful execute on the base tool (inherited by the
PostgreSQL, MySQL, SQLite and generic adapters) and on the Snowflake tool,
the `row_count` field equals the number of raw rows the backend returned for
the rewritten query, independently of the requested format. -/
theorem execute_row_count (connectOk : Except String Unit)
    (runQuery : String → Except String QueryOutcome)
    (snowRunQuery : String → Nat → Option String → Bool → Except String QueryOutcome)
    (dbtype query : String) (limit : Nat) (format : String) (timeout : Nat)
    (warehouse : Option String) (useCached : Bool) :
    (∀ r, baseExecute connectOk runQuery dbtype query limit format = Except.ok r →
      ∃ out, runQuery (apply_limit query limit) = Except.ok out ∧
        r.row_count = out.rows.length) ∧
    (∀ r, snowflakeExecute connectOk snowRunQuery query limit format timeout
        warehouse useCached = Except.ok r →
      ∃ out, snowRunQuery (apply_limit query limit) timeout warehouse useCached
          = Except.ok out ∧ r.base.row_count = out.rows.length) := by
  constructor
  · intro r hr
    unfold baseExecute at hr
    cases connectOk with
    | error e => exact absurd hr (by simp)
    | ok u =>
      cases u
      cases hv : validate_query query with
      | error e => rw [hv] at hr; exact absurd hr (by simp)
      | ok u =>
        cases u
        rw [hv] at hr
        cases hq : runQuery (apply_limit query limit) with
        | error e => rw [hq] at hr; exact absurd hr (by simp)
        | ok out =>
          rw [hq] at hr
          refine ⟨out, rfl, ?_⟩
          cases hr
          rfl
  · intro r hr
    unfold snowflakeExecute at hr
    cases connectOk with
    | error e => exact absurd hr (by simp)
    | ok u =>
      cases u
      cases hv : validate_query query with
      | error e => rw [hv] at hr; exact absurd hr (by simp)
      | ok u =>
        cases u
        rw [hv] at hr
        cases hq : snowRunQuery (apply_limit query limit) timeout warehouse useCached with
        | error e => rw [hq] at hr; exact absurd hr (by simp)
        | ok out =>
          rw [hq] at hr
          refine ⟨out, rfl, ?_⟩
          cases hr
          rfl

/-- C7 witness: a successful concrete execute whose `row_count` is the raw
row count of the backend outcome. -/
theorem execute_row_count_witness :
    ∃ out, oneRowBackend (apply_limit "SELECT 1 as one" 100) = Except.ok out ∧
      (1 : Nat) = out.rows.length := by
  have h := (execute_row_count (Except.ok ()) oneRowBackend
      (fun q _ _ _ => oneRowBackend q) "sqlite" "SELECT 1 as one" 100 "json" 30
      Option.none true).1
  have hb : baseExecute (Except.ok ()) oneRowBackend "sqlite" "SELECT 1 as one" 100 "json"
      = Except.ok
        { query := apply_limit "SELECT 1 as one" 100
          row_count := 1
          columns := ["one"]
          results := Formatted.rows [[("one", PyVal.int 1)]]
          database_type := "sqlite"
          limit_applied := 100
          format := "json" } := by decide
  simpa using h _ hb

/-- A contiguous occurrence of `xs` is detected by `prefixOfL` at its
starting position. -/
theorem prefixOfL_self_append (xs : List Char) :
    ∀ ys, prefixOfL xs (xs ++ ys) = true := by
  induction xs with
  | nil => intro ys; rfl
  | cons a as ih =>
    intro ys
    rw [List.cons_append, prefixOfL, Bool.and_eq_true]
    exact ⟨by simp, ih ys⟩

/-- A contiguous occurrence in the middle of a list is detected by
`infixOfL`. -/
theorem infixOfL_append (xs : List Char) (as bs : List Char) :
    infixOfL xs (as ++ (xs ++ bs)) = true := by
  induction as with
  | nil =>
    rw [List.nil_append]
    cases xs with
    | nil =>
      cases bs with
      | nil => rfl
      | cons b bs => rfl
    | cons c cs =>
      rw [List.cons_append, infixOfL, Bool.or_eq_true]
      exact Or.inl (prefixOfL_self_append (c :: cs) bs)
  | cons a rest ih =>
    rw [List.cons_append, infixOfL, Bool.or_eq_true]
    exact Or.inr ih

/-- String-level version: a string occurs in any surrounding context. -/
theorem strContains_append (a n b : String) : strContains (a ++ n ++ b) n = true := by
  have hdata : (a ++ n ++ b).toList = a.toList ++ (n.toList ++ b.toList) := by
    show (a ++ n ++ b).data = a.data ++ (n.data ++ b.data)
    rw [String.data_append, String.data_append, List.append_assoc]
  unfold strContains
  rw [hdata]
  exact infixOfL_append n.toList a.toList b.toList

/-! ## Claim C5: dispatcher error behaviour -/
/-- C5: an unknown connection name raises `ConnectionError`, with the very
same outcome whatever any adapter would do (so no adapter is consulted); a
registered connection whose adapter fails raises `QueryError` whose message
contains the connection name. -/
theorem manager_execute_errors (connections : List String)
    (adapterRun : String → String → Nat → String → Nat → Except String BaseResult)
    (toolName : String → String)
    (name query : String) (limit : Nat) (format : String) (timeout : Nat) :
    (connections.contains name = false →
      managerExecute connections adapterRun toolName name query limit format timeout
        = Except.error (ManagerError.connectionError ("Unknown connection: " ++ name)) ∧
      ∀ adapterRun2 toolName2,
        managerExecute connections adapterRun2 toolName2 name query limit format timeout
          = managerExecute connections adapterRun toolName name query limit format timeout) ∧
    (∀ e, connections.contains name = true →
      adapterRun name query limit format timeout = Except.error e →
      managerExecute connections adapterRun toolName name query limit format timeout
        = Except.error (ManagerError.queryError ("Query failed on " ++ name ++ ": " ++ e)) ∧
      ∀ m, managerExecute connections adapterRun toolName name query limit format timeout
          = Except.error (ManagerError.queryError m) → strContains m name = true) := by
  constructor
  · intro hno
    constructor
    · unfold managerExecute
      rw [hno]
      rfl
    · intro adapterRun2 toolName2
      unfold managerExecute
      rw [hno]
      rfl
  · intro e hyes hfail
    have h1 : managerExecute connections adapterRun toolName name query limit format timeout
        = Except.error (ManagerError.queryError
            ("Query failed on " ++ name ++ ": " ++ e)) := by
      unfold managerExecute
      rw [hyes, hfail]
      rfl
    constructor
    · exact h1
    · intro m hm
      rw [h1] at hm
      have hm3 : ManagerError.queryError ("Query failed on " ++ name ++ ": " ++ e)
          = ManagerError.queryError m := by injection hm
      have hm4 : "Query failed on " ++ name ++ ": " ++ e = m := by injection hm3
      rw [← hm4, String.append_assoc ("Query failed on " ++ name) ": " e]
      exact strContains_append "Query failed on " name (": " ++ e)

/-- C5 witness: both error paths at concrete inputs. -/
theorem manager_execute_errors_witness :
    managerExecute ["a"] (fun _ _ _ _ _ => Except.error "boom") (fun _ => "sqlite")
        "b" "SELECT 1" 100 "table" 30
      = Except.error (ManagerError.connectionError "Unknown connection: b") ∧
    managerExecute ["a"] (fun _ _ _ _ _ => Except.error "boom") (fun _ => "sqlite")
        "a" "SELECT 1" 100 "table" 30
      = Except.error (ManagerError.queryError "Query failed on a: boom") := by
  constructor
  · exact ((manager_execute_errors ["a"] (fun _ _ _ _ _ => Except.error "boom")
      (fun _ => "sqlite") "b" "SELECT 1" 100 "table" 30).1 (by decide)).1
  · exact ((manager_execute_errors ["a"] (fun _ _ _ _ _ => Except.error "boom")
      (fun _ => "sqlite") "a" "SELECT 1" 100 "table" 30).2 "boom" (by decide) rfl).1

theorem crossAux_eq (connections : List String)
    (adapterRun : String → String → Nat → String → Nat → Except String BaseResult)
    (toolName : String → String) (combine : Bool) :
    ∀ (i : Nat) (queries : List QuerySpec),
      crossAux connections adapterRun toolName combine i queries =
        ((enumFrom i queries).map
            (fun p => (crossStep connections adapterRun toolName combine p.1 p.2).1),
          ((enumFrom i queries).map
            (fun p => (crossStep connections adapterRun toolName combine p.1 p.2).2)).flatten) := by
  intro i queries
  induction queries generalizing i with
  | nil => rfl
  | cons spec rest ih =>
    rw [crossAux, enumFrom, List.map_cons, List.map_cons, List.flatten_cons, ih (i + 1)]

/-! ## Dict update lemmas used for the tagging facts -/
theorem alistGet_set_self {α : Type} (l : List (String × α)) (k : String) (v : α) :
    alistGet (alistSet l k v) k = some v := by
  induction l with
  | nil => simp [alistSet, alistGet]
  | cons kv rest ih =>
    by_cases h : kv.1 == k
    · cases kv
      simp_all [alistSet, alistGet]
    · cases kv
      simp_all [alistSet, alistGet]

theorem alistGet_set_ne {α : Type} (l : List (String × α)) (k k2 : String) (v : α)
    (h : k ≠ k2) : alistGet (alistSet l k v) k2 = alistGet l k2 := by
  induction l with
  | nil => simp [alistSet, alistGet, h]
  | cons kv rest ih =>
    cases kv with
    | mk k0 v0 =>
      by_cases h0 : k0 = k
      · subst h0
        simp [alistSet, alistGet, h]
      · simp [alistSet, alistGet, h0, ih]

/-- Tagged rows carry the two synthetic source fields. -/
theorem tagRow_fields (name : String) (qidx : Nat) (row : Row) :
    alistGet (tagRow name qidx row) "_source_connection" = some (PyVal.str name) ∧
    alistGet (tagRow name qidx row) "_source_query" = some (PyVal.int qidx) := by
  constructor
  · unfold tagRow
    rw [alistGet_set_ne _ _ _ _ (by decide)]
    exact alistGet_set_self _ _ _
  · exact alistGet_set_self _ _ _

theorem map_ne_self_of_mem_ne {α : Type} (f : α → α) (l : List α) (x : α)
    (hx : x ∈ l) (hfx : f x ≠ x) : l.map f ≠ l := by
  induction l with
  | nil => cases hx
  | cons a rest ih =>
    intro h
    rw [List.map_cons, List.cons_eq_cons] at h
    rcases List.mem_cons.mp hx with hx1 | hx1
    · exact hfx (by rw [hx1]; exact h.1)
    · exact ih hx1 h.2

/-! ## Claim C3: fan-out semantics -/
/-- C3: the fan-out result is exactly one entry per spec, in input order,
keyed `query_<1-based index>_<connection name>` — computed from that spec
alone, so a failing spec never prevents the remaining specs from executing —
followed, when `combine` is requested, by the `combined_results` entry whose
data is the concatenation, in query order, of the tagged rows of the
successful sub-queries whose requested format was `json`; a spec whose
dispatch fails contributes an error entry and no combined rows, a successful
json spec under `combine` contributes its tagged rows, every tagged row
carrying its source connection name and 1-based query index, and any other
successful spec contributes its untouched result and no combined rows. -/
theorem cross_database_query_spec (connections : List String)
    (adapterRun : String → String → Nat → String → Nat → Except String BaseResult)
    (toolName : String → String) (queries : List QuerySpec) (combine : Bool) :
    (execute_cross_database_query connections adapterRun toolName queries combine =
      ((enumFrom 0 queries).map
        (fun p => (crossStep connections adapterRun toolName combine p.1 p.2).1)) ++
      (if combine then
        [("combined_results",
          CrossEntry.combined
            (((enumFrom 0 queries).map
              (fun p => (crossStep connections adapterRun toolName combine p.1 p.2).2)).flatten).length
            (((enumFrom 0 queries).map
              (fun p => (crossStep connections adapterRun toolName combine p.1 p.2).2)).flatten))]
      else [])) ∧
    (∀ (i : Nat) (spec : QuerySpec),
      (crossStep connections adapterRun toolName combine i spec).1.1 =
        "query_" ++ toString (i + 1) ++ "_" ++ spec.connection_name ∧
      (∀ e, managerExecute connections adapterRun toolName spec.connection_name spec.query
            (spec.limit.getD 100) (spec.format.getD "json") 30 = Except.error e →
        (crossStep connections adapterRun toolName combine i spec).1.2
            = CrossEntry.err (errStr e) ∧
        (crossStep connections adapterRun toolName combine i spec).2 = []) ∧
      (∀ r, managerExecute connections adapterRun toolName spec.connection_name spec.query
            (spec.limit.getD 100) (spec.format.getD "json") 30 = Except.ok r →
        (combine = true ∧ spec.format.getD "json" = "json" →
          (crossStep connections adapterRun toolName combine i spec).1.2
              = CrossEntry.ok (withTaggedResults r
                  ((getJsonRows r.base.results).map (tagRow spec.connection_name (i + 1)))) ∧
          (crossStep connections adapterRun toolName combine i spec).2
              = (getJsonRows r.base.results).map (tagRow spec.connection_name (i + 1)) ∧
          ∀ row ∈ (crossStep connections adapterRun toolName combine i spec).2,
            alistGet row "_source_connection" = some (PyVal.str spec.connection_name) ∧
            alistGet row "_source_query" = some (PyVal.int (i + 1))) ∧
        (¬(combine = true ∧ spec.format.getD "json" = "json") →
          (crossStep connections adapterRun toolName combine i spec).1.2 = CrossEntry.ok r ∧
          (crossStep connections adapterRun toolName combine i spec).2 = []))) := by
  constructor
  · unfold execute_cross_database_query
    rw [crossAux_eq connections adapterRun toolName combine 0 queries]
  · intro i spec
    refine ⟨?_, ?_, ?_⟩
    · cases hm : managerExecute connections adapterRun toolName spec.connection_name
          spec.query (spec.limit.getD 100) (spec.format.getD "json") 30 with
      | error e => unfold crossStep; rw [hm]; rfl
      | ok r =>
        unfold crossStep
        rw [hm]
        by_cases hc : (combine && (spec.format.getD "json") == "json") = true
        · rw [hc]; rfl
        · rw [Bool.not_eq_true] at hc; rw [hc]; rfl
    · intro e he
      unfold crossStep
      rw [he]
      exact ⟨rfl, rfl⟩
    · intro r hr
      constructor
      · rintro ⟨hcom, hfmt⟩
        have hcond : (combine && (spec.format.getD "json") == "json") = true := by
          rw [hcom, hfmt]
          rfl
        refine ⟨?_, ?_, ?_⟩
        · unfold crossStep; rw [hr, hcond]; rfl
        · unfold crossStep; rw [hr, hcond]; rfl
        · intro row hrow
          have hrow2 : row ∈ (getJsonRows r.base.results).map
              (tagRow spec.connection_name (i + 1)) := by
            have hsteps : (crossStep connections adapterRun toolName combine i spec).2
                = (getJsonRows r.base.results).map (tagRow spec.connection_name (i + 1)) := by
              unfold crossStep; rw [hr, hcond]; rfl
            rw [hsteps] at hrow
            exact hrow
          rcases List.mem_map.mp hrow2 with ⟨row0, -, hrow0⟩
          rw [← hrow0]
          exact tagRow_fields spec.connection_name (i + 1) row0
      · intro hnot
        have hcond : (combine && (spec.format.getD "json") == "json") = false := by
          by_cases hcom : combine = true
          · by_cases hfmt : spec.format.getD "json" = "json"
            · exact absurd ⟨hcom, hfmt⟩ hnot
            · rw [hcom, Bool.true_and, beq_eq_false_iff_ne]
              exact hfmt
          · rw [Bool.not_eq_true] at hcom
            rw [hcom, Bool.false_and]
        constructor
        · unfold crossStep; rw [hr, hcond]; rfl
        · unfold crossStep; rw [hr, hcond]; rfl

/-- C3 witness: in the concrete scenario, the first spec is keyed
`query_1_A`, the failing second spec records an error entry, and the first
spec contributes its tagged rows to the combined data. -/
theorem cross_database_query_spec_witness :
    (crossStep cConns cAdapterRun cToolName true 0 cSpecA).1.1 = "query_1_A" ∧
    (crossStep cConns cAdapterRun cToolName true 1 cSpecB).1.2
        = CrossEntry.err "Query failed on B: bad sql" ∧
    (crossStep cConns cAdapterRun cToolName true 0 cSpecA).2
        = (getJsonRows cMgrA.base.results).map (tagRow cSpecA.connection_name (0 + 1)) := by
  refine ⟨?_, ?_, ?_⟩
  · rw [((cross_database_query_spec cConns cAdapterRun cToolName [cSpecA, cSpecB] true).2
      0 cSpecA).1]
    decide
  · rw [(((cross_database_query_spec cConns cAdapterRun cToolName [cSpecA, cSpecB] true).2
      1 cSpecB).2.1 (ManagerError.queryError "Query failed on B: bad sql") (by decide)).1]
    rfl
  · exact ((((cross_database_query_spec cConns cAdapterRun cToolName [cSpecA, cSpecB] true).2
      0 cSpecA).2.2 cMgrA (by decide)).1 ⟨rfl, by decide⟩).2.1

/-! ## Claim C10: the per-query entries share the tagged rows -/
/-- C10: under `combine_results = true`, a successful json-formatted spec's
own per-query entry stores the tagged rows — the synthetic
`_source_connection` and `_source_query` fields are written into the very
row dicts the per-query result references — so whenever some raw row lacked
the `_source_connection` field, the stored per-query rows are not the rows
exactly as the adapter returned them. -/
theorem cross_per_query_results_tagged (connections : List String)
    (adapterRun : String → String → Nat → String → Nat → Except String BaseResult)
    (toolName : String → String) (queries : List QuerySpec)
    (i : Nat) (spec : QuerySpec) (r : ManagerResult)
    (hmem : (i, spec) ∈ enumFrom 0 queries)
    (hfmt : spec.format.getD "json" = "json")
    (hok : managerExecute connections adapterRun toolName spec.connection_name spec.query
        (spec.limit.getD 100) (spec.format.getD "json") 30 = Except.ok r) :
    (crossKey i spec.connection_name,
      CrossEntry.ok (withTaggedResults r
        ((getJsonRows r.base.results).map (tagRow spec.connection_name (i + 1)))))
      ∈ execute_cross_database_query connections adapterRun toolName queries true ∧
    (∀ row ∈ (getJsonRows r.base.results).map (tagRow spec.connection_name (i + 1)),
      alistGet row "_source_connection" = some (PyVal.str spec.connection_name) ∧
      alistGet row "_source_query" = some (PyVal.int (i + 1))) ∧
    (∀ row0 ∈ getJsonRows r.base.results,
      alistGet row0 "_source_connection" = Option.none →
      (getJsonRows r.base.results).map (tagRow spec.connection_name (i + 1))
        ≠ getJsonRows r.base.results) := by
  have hcond : (true && (spec.format.getD "json") == "json") = true := by
    rw [hfmt]
    rfl
  have hstep : (crossStep connections adapterRun toolName true i spec).1
      = (crossKey i spec.connection_name,
          CrossEntry.ok (withTaggedResults r
            ((getJsonRows r.base.results).map (tagRow spec.connection_name (i + 1))))) := by
    unfold crossStep
    rw [hok, hcond]
    rfl
  refine ⟨?_, ?_, ?_⟩
  · unfold execute_cross_database_query
    rw [crossAux_eq connections adapterRun toolName true 0 queries]
    apply List.mem_append_left
    rw [← hstep]
    exact List.mem_map_of_mem
      (fun p => (crossStep connections adapterRun toolName true p.1 p.2).1) hmem
  · intro row hrow
    rcases List.mem_map.mp hrow with ⟨row0, -, hrow0⟩
    rw [← hrow0]
    exact tagRow_fields spec.connection_name (i + 1) row0
  · intro row0 h0 hnone
    apply map_ne_self_of_mem_ne (tagRow spec.connection_name (i + 1))
      (getJsonRows r.base.results) row0 h0
    intro heq
    have := (tagRow_fields spec.connection_name (i + 1) row0).1
    rw [heq, hnone] at this
    exact absurd this (by simp)

/-- C10 witness: the concrete scenario instantiated at spec `A`. -/
theorem cross_per_query_results_tagged_witness :
    (crossKey 0 cSpecA.connection_name,
      CrossEntry.ok (withTaggedResults cMgrA
        ((getJsonRows cMgrA.base.results).map (tagRow cSpecA.connection_name (0 + 1)))))
      ∈ execute_cross_database_query cConns cAdapterRun cToolName [cSpecA, cSpecB] true ∧
    (∀ row ∈ (getJsonRows cMgrA.base.results).map (tagRow cSpecA.connection_name (0 + 1)),
      alistGet row "_source_connection" = some (PyVal.str cSpecA.connection_name) ∧
      alistGet row "_source_query" = some (PyVal.int (0 + 1))) ∧
    (∀ row0 ∈ getJsonRows cMgrA.base.results,
      alistGet row0 "_source_connection" = Option.none →
      (getJsonRows cMgrA.base.results).map (tagRow cSpecA.connection_name (0 + 1))
        ≠ getJsonRows cMgrA.base.results) :=
  cross_per_query_results_tagged cConns cAdapterRun cToolName [cSpecA, cSpecB]
    0 cSpecA cMgrA (by decide) (by decide) (by decide)

theorem redactConfig_eq_of_secretsOnlyDiffer (c1 : Config) :
    ∀ c2, secretsOnlyDiffer c1 c2 → redactConfig c1 = redactConfig c2 := by
  induction c1 with
  | nil =>
    rintro c2 ⟨hlen, -⟩
    cases c2 with
    | nil => rfl
    | cons kv2 rest2 => exact absurd hlen (by simp)
  | cons kv1 rest1 ih =>
    rintro c2 ⟨hlen, hmem⟩
    cases c2 with
    | nil => exact absurd hlen (by simp)
    | cons kv2 rest2 =>
      have hhead := hmem (kv1, kv2) (by rw [List.zip_cons_cons]; exact List.mem_cons_self _ _)
      have htail : secretsOnlyDiffer rest1 rest2 := by
        refine ⟨by simpa using hlen, ?_⟩
        intro p hp
        exact hmem p (by rw [List.zip_cons_cons]; exact List.mem_cons_of_mem _ hp)
      unfold redactConfig
      rw [List.map_cons, List.map_cons]
      have htl : rest1.map (fun kv =>
          if sensitive_keys.contains kv.1 then (kv.1, PyVal.str "***hidden***") else kv)
          = rest2.map (fun kv =>
          if sensitive_keys.contains kv.1 then (kv.1, PyVal.str "***hidden***") else kv) :=
        ih rest2 htail
      rw [htl]
      congr 1
      by_cases hs : sensitive_keys.contains kv1.1 = true
      · rw [if_pos hs, if_pos (by rw [← hhead.1]; exact hs), hhead.1]
      · rw [Bool.not_eq_true] at hs
        rw [if_neg (by rw [hs]; simp), if_neg (by rw [← hhead.1, hs]; simp)]
        have hv := hhead.2 hs
        cases kv1 with
        | mk k1 v1 =>
          cases kv2 with
          | mk k2 v2 =>
            rw [Prod.mk.injEq]
            exact ⟨hhead.1, hv⟩

theorem list_connections_eq_of_storesDiffer (s1 : List (String × Config)) :
    ∀ s2, storesDifferOnlyInSecrets s1 s2 → list_connections s1 = list_connections s2 := by
  induction s1 with
  | nil =>
    rintro s2 ⟨hlen, -⟩
    cases s2 with
    | nil => rfl
    | cons nc2 rest2 => exact absurd hlen (by simp)
  | cons nc1 rest1 ih =>
    rintro s2 ⟨hlen, hmem⟩
    cases s2 with
    | nil => exact absurd hlen (by simp)
    | cons nc2 rest2 =>
      have hhead := hmem (nc1, nc2) (by rw [List.zip_cons_cons]; exact List.mem_cons_self _ _)
      have htail : storesDifferOnlyInSecrets rest1 rest2 := by
        refine ⟨by simpa using hlen, ?_⟩
        intro p hp
        exact hmem p (by rw [List.zip_cons_cons]; exact List.mem_cons_of_mem _ hp)
      have htl := ih rest2 htail
      unfold list_connections at htl ⊢
      simp only [ListResult.mk.injEq] at htl ⊢
      have hmap : rest1.map (fun nc => (nc.1, redactConfig nc.2))
          = rest2.map (fun nc => (nc.1, redactConfig nc.2)) := htl.2
      have hhd : (nc1.1, redactConfig nc1.2) = (nc2.1, redactConfig nc2.2) := by
        rw [Prod.mk.injEq]
        exact ⟨hhead.1, redactConfig_eq_of_secretsOnlyDiffer nc1.2 nc2.2 hhead.2⟩
      rw [List.map_cons, List.map_cons, hmap, hhd]
      exact ⟨rfl, rfl⟩

theorem redactConfig_strings (c : Config) (t : String)
    (ht : t ∈ configStrings (redactConfig c)) :
    t = "***hidden***" ∨ (∃ kv ∈ c, t = kv.1) ∨
    (∃ kv ∈ c, sensitive_keys.contains kv.1 = false ∧ kv.2 = PyVal.str t) := by
  unfold configStrings redactConfig at ht
  rcases List.mem_flatMap.mp ht with ⟨kv2, hkv2, htin⟩
  rcases List.mem_map.mp hkv2 with ⟨kv, hkv, hkveq⟩
  by_cases hs : sensitive_keys.contains kv.1 = true
  · rw [if_pos hs] at hkveq
    rw [← hkveq] at htin
    rcases List.mem_cons.mp htin with h | h
    · exact Or.inr (Or.inl ⟨kv, hkv, h⟩)
    · left
      unfold valStrings at h
      rcases List.mem_singleton.mp h with h0
      exact h0
  · rw [Bool.not_eq_true] at hs
    rw [if_neg (by rw [hs]; simp)] at hkveq
    rw [← hkveq] at htin
    rcases List.mem_cons.mp htin with h | h
    · exact Or.inr (Or.inl ⟨kv, hkv, h⟩)
    · right; right
      refine ⟨kv, hkv, hs, ?_⟩
      cases hv : kv.2 with
      | str s0 =>
        rw [hv] at h
        unfold valStrings at h
        rcases List.mem_singleton.mp h with h0
        rw [h0]
      | int i => rw [hv] at h; exact absurd h (by simp [valStrings])
      | none => rw [hv] at h; exact absurd h (by simp [valStrings])

/-! ## Claim C6: descriptor redaction -/
/-- C6 counterexample: when the stored secret (`password = "secret"`) also
happens to be the value of a non-secret field (`host = "secret"`), the
output of `list_connections` does contain the literal string `secret`, so
the claimed universal absence does not hold as stated (and is therefore not
equivalent to the noninterference formulation, which does hold). -/
theorem list_connections_counterexample :
    alistGet [("host", PyVal.str "secret"), ("password", PyVal.str "secret")] "password"
      = some (PyVal.str "secret") ∧
    outputContains
      (list_connections
        [("a", [("host", PyVal.str "secret"), ("password", PyVal.str "secret")])])
      "secret" = true := by decide

/-- C6 (amended): `list_connections` replaces the value of every
secret-bearing field with the `***hidden***` placeholder; any two stores
that differ only in the values of secret-bearing fields produce the same
output; and the output never contains a string that does not already occur
in the placeholder, a connection name, a field name or a non-secret field
value — in particular a stored secret can appear only by coinciding with one
of those. -/
theorem list_connections_redacts (store store2 : List (String × Config)) (s : String) :
    (∀ nc ∈ (list_connections store).connections, ∀ kv ∈ nc.2,
        sensitive_keys.contains kv.1 = true → kv.2 = PyVal.str "***hidden***") ∧
    (storesDifferOnlyInSecrets store store2 →
        list_connections store = list_connections store2) ∧
    (strContains "***hidden***" s = false →
      (∀ nc ∈ store, strContains nc.1 s = false) →
      (∀ nc ∈ store, ∀ kv ∈ nc.2, strContains kv.1 s = false) →
      (∀ nc ∈ store, ∀ kv ∈ nc.2, sensitive_keys.contains kv.1 = false →
        ∀ v, kv.2 = PyVal.str v → strContains v s = false) →
      outputContains (list_connections store) s = false) := by
  refine ⟨?_, list_connections_eq_of_storesDiffer store store2, ?_⟩
  · intro nc hnc kv hkv hs
    unfold list_connections at hnc
    rcases List.mem_map.mp hnc with ⟨nc0, hnc0, hnceq⟩
    rw [← hnceq] at hkv
    unfold redactConfig at hkv
    rcases List.mem_map.mp hkv with ⟨kv0, hkv0, hkveq⟩
    by_cases hs0 : sensitive_keys.contains kv0.1 = true
    · rw [if_pos hs0] at hkveq
      rw [← hkveq]
    · rw [Bool.not_eq_true] at hs0
      rw [if_neg (by rw [hs0]; simp)] at hkveq
      rw [hkveq] at hs0
      rw [hs] at hs0
      exact absurd hs0 (by simp)
  · intro hph hnames hkeys hvals
    unfold outputContains
    rw [List.any_eq_false]
    intro t ht
    rw [Bool.not_eq_true]
    unfold outputStrings list_connections at ht
    rcases List.mem_flatMap.mp ht with ⟨nc2, hnc2, htin⟩
    rcases List.mem_map.mp hnc2 with ⟨nc, hnc, hnceq⟩
    rw [← hnceq] at htin
    rcases List.mem_cons.mp htin with h | h
    · rw [h]
      exact hnames nc hnc
    · rcases redactConfig_strings nc.2 t h with h0 | h0 | h0
      · rw [h0]
        exact hph
      · rcases h0 with ⟨kv, hkv, hteq⟩
        rw [hteq]
        exact hkeys nc hnc kv hkv
      · rcases h0 with ⟨kv, hkv, hksens, hkval⟩
        exact hvals nc hnc kv hkv hksens t hkval

/-- C6 witness: two concrete stores differing only in the password value
produce identical redacted output, and the secret value `p1` does not occur
anywhere in the output. -/
theorem list_connections_redacts_witness :
    list_connections [("a", [("host", PyVal.str "h"), ("password", PyVal.str "p1")])]
      = list_connections [("a", [("host", PyVal.str "h"), ("password", PyVal.str "p2")])] ∧
    outputContains
      (list_connections [("a", [("host", PyVal.str "h"), ("password", PyVal.str "p1")])])
      "p1" = false := by
  have h := list_connections_redacts
    [("a", [("host", PyVal.str "h"), ("password", PyVal.str "p1")])]
    [("a", [("host", PyVal.str "h"), ("password", PyVal.str "p2")])] "p1"
  constructor
  · refine h.2.1 ⟨rfl, ?_⟩
    intro p hp
    rcases List.mem_singleton.mp hp with h0
    rw [h0]
    refine ⟨rfl, by decide, ?_⟩
    intro q hq
    rcases List.mem_cons.mp hq with h1 | h1
    · rw [h1]
      exact ⟨rfl, fun _ => rfl⟩
    · rcases List.mem_singleton.mp h1 with h2
      rw [h2]
      exact ⟨rfl, by decide⟩
  · refine h.2.2 (by decide) (by decide) (by decide) ?_
    intro nc hnc kv hkv hsens v hv
    rcases List.mem_singleton.mp hnc with h0
    subst h0
    rcases List.mem_cons.mp hkv with h1 | h1
    · subst h1
      have hv2 : PyVal.str "h" = PyVal.str v := hv
      injection hv2 with hv3
      subst hv3
      decide
    · rcases List.mem_singleton.mp h1 with h2
      subst h2
      exact absurd hsens (by decide)

/-! Association-list lemmas for the rollback reasoning. -/
theorem alistDel_alistSet_of_get_none {α : Type} (l : List (String × α)) (k : String) (v : α)
    (h : alistGet l k = Option.none) : alistDel (alistSet l k v) k = l := by
  induction l with
  | nil => simp [alistSet, alistDel]
  | cons kv rest ih =>
    cases kv with
    | mk k0 v0 =>
      by_cases h0 : k0 == k
      · rw [alistGet] at h
        rw [if_pos h0] at h
        exact absurd h (by simp)
      · rw [alistGet] at h
        rw [if_neg h0] at h
        rw [alistSet]
        rw [if_neg h0]
        rw [alistDel]
        rw [if_neg h0]
        rw [ih h]

theorem alistSet_alistSet_same {α : Type} (l : List (String × α)) (k : String) (a b : α) :
    alistSet (alistSet l k a) k b = alistSet l k b := by
  induction l with
  | nil => simp [alistSet]
  | cons kv rest ih =>
    cases kv with
    | mk k0 v0 =>
      by_cases h0 : k0 == k
      · rw [alistSet, if_pos h0, alistSet, if_pos h0, alistSet, if_pos h0]
      · rw [alistSet, if_neg h0, alistSet, if_neg h0, alistSet, if_neg h0, ih]

theorem alistSet_get_self {α : Type} (l : List (String × α)) (k : String) (v : α)
    (h : alistGet l k = some v) : alistSet l k v = l := by
  induction l with
  | nil => exact absurd h (by simp [alistGet])
  | cons kv rest ih =>
    cases kv with
    | mk k0 v0 =>
      by_cases h0 : k0 == k
      · rw [alistGet, if_pos h0] at h
        rw [alistSet, if_pos h0]
        have hv : v0 = v := by injection h
        rw [hv]
      · rw [alistGet, if_neg h0] at h
        rw [alistSet, if_neg h0, ih h]

theorem alistDel_length {α : Type} (l : List (String × α)) (k : String) (v : α)
    (h : alistGet l k = some v) : (alistDel l k).length + 1 = l.length := by
  induction l with
  | nil => exact absurd h (by simp [alistGet])
  | cons kv rest ih =>
    cases kv with
    | mk k0 v0 =>
      by_cases h0 : k0 == k
      · rw [alistDel, if_pos h0]
        rfl
      · rw [alistGet, if_neg h0] at h
        rw [alistDel, if_neg h0, List.length_cons, List.length_cons, ih h]

/-- C4 counterexample: removing `x` from a two-connection store whose
rebuild fails leaves the store mutated (the entry stays deleted, no
rollback), leaves the stale manager in place, and reports success instead
of an error. -/
theorem remove_connection_no_rollback_counterexample :
    cBadRebuild (alistDel cStore2.database_configs "x") = Except.error "boom" ∧
    (remove_connection cBadRebuild cStore2 "x").1.database_configs
      = [("y", [("database_type", PyVal.str "mysql")])] ∧
    (remove_connection cBadRebuild cStore2 "x").1.database_configs
      ≠ cStore2.database_configs ∧
    (remove_connection cBadRebuild cStore2 "x").2.status = "success" := by decide

/-- C4 (amended): when the dispatcher rebuild fails, `add_connection` and
`update_connection` restore the in-memory store to its exact pre-call state,
leave the live manager untouched, and report an error; `remove_connection`,
however, keeps the deletion in the store, leaves the stale manager in place,
and still reports success. -/
theorem config_mutation_rollback
    (rebuild : List (String × Config) → Except String (List String))
    (st : ConfigState) (name : String) (config : Config) (e : String) :
    (alistGet st.database_configs name = Option.none →
      (alistGet config "database_type").isNone = false →
      rebuild (alistSet st.database_configs name config) = Except.error e →
      add_connection rebuild st name config
        = (st, { status := "error", message := "Failed to create connection: " ++ e })) ∧
    (∀ old, alistGet st.database_configs name = some old →
      rebuild (alistSet st.database_configs name (dictUpdate old config))
          = Except.error e →
      update_connection rebuild st name config
        = (st, { status := "error", message := "Failed to update connection: " ++ e })) ∧
    (∀ old, alistGet st.database_configs name = some old →
      (alistDel st.database_configs name).isEmpty = false →
      rebuild (alistDel st.database_configs name) = Except.error e →
      remove_connection rebuild st name
        = ({ database_configs := alistDel st.database_configs name, manager := st.manager },
           { status := "success",
             message := "Connection " ++ name ++ " removed successfully" }) ∧
      (remove_connection rebuild st name).1.database_configs ≠ st.database_configs) := by
  refine ⟨?_, ?_, ?_⟩
  · intro hget hdt hre
    unfold add_connection
    rw [hget]
    simp only [Option.isSome_none, Bool.false_eq_true, if_false]
    rw [hdt]
    simp only [Bool.false_eq_true, if_false]
    rw [hre, alistDel_alistSet_of_get_none st.database_configs name config hget]
  · intro old hget hre
    unfold update_connection
    rw [hget]
    simp only [hre]
    rw [alistSet_alistSet_same, alistSet_get_self st.database_configs name old hget]
  · intro old hget hne hre
    have hrem : remove_connection rebuild st name
        = ({ database_configs := alistDel st.database_configs name, manager := st.manager },
           { status := "success",
             message := "Connection " ++ name ++ " removed successfully" }) := by
      unfold remove_connection
      rw [hget]
      simp only [Option.isNone_some, Bool.false_eq_true, if_false]
      rw [hne]
      simp only [Bool.false_eq_true, if_false]
      rw [hre]
    refine ⟨hrem, ?_⟩
    intro hcontra
    rw [hrem] at hcontra
    have hcontra2 : alistDel st.database_configs name = st.database_configs := hcontra
    have hlen := alistDel_length st.database_configs name old hget
    rw [hcontra2] at hlen
    omega

/-- C4 witness: the three branches at the concrete failing-rebuild store. -/
theorem config_mutation_rollback_witness :
    add_connection cBadRebuild cStore2 "z" [("database_type", PyVal.str "sqlite")]
      = (cStore2, { status := "error", message := "Failed to create connection: boom" }) ∧
    update_connection cBadRebuild cStore2 "x" [("host", PyVal.str "h")]
      = (cStore2, { status := "error", message := "Failed to update connection: boom" }) ∧
    remove_connection cBadRebuild cStore2 "x"
      = ({ database_configs := [("y", [("database_type", PyVal.str "mysql")])],
           manager := cStore2.manager },
         { status := "success", message := "Connection x removed successfully" }) := by
  refine ⟨?_, ?_, ?_⟩
  · exact (config_mutation_rollback cBadRebuild cStore2 "z"
      [("database_type", PyVal.str "sqlite")] "boom").1 (by decide) (by decide) (by decide)
  · exact (config_mutation_rollback cBadRebuild cStore2 "x"
      [("host", PyVal.str "h")] "boom").2.1
      [("database_type", PyVal.str "sqlite")] (by decide) (by decide)
  · exact ((config_mutation_rollback cBadRebuild cStore2 "x"
      [("host", PyVal.str "h")] "boom").2.2
      [("database_type", PyVal.str "sqlite")] (by decide) (by decide) (by decide)).1

/-! Invariant machinery for the loader claims. -/
theorem alistSet_mem {α : Type} (l : List (String × α)) (k : String) (v : α) :
    ∀ kv ∈ alistSet l k v, kv ∈ l ∨ kv = (k, v) := by
  induction l with
  | nil =>
    intro kv hkv
    rcases List.mem_singleton.mp hkv with h
    exact Or.inr h
  | cons kv0 rest ih =>
    intro kv hkv
    cases kv0 with
    | mk k0 v0 =>
      by_cases h0 : (k0 == k) = true
      · rw [alistSet, if_pos h0] at hkv
        rcases List.mem_cons.mp hkv with h | h
        · right
          rw [h, eq_of_beq h0]
        · exact Or.inl (List.mem_cons_of_mem _ h)
      · rw [alistSet, if_neg h0] at hkv
        rcases List.mem_cons.mp hkv with h | h
        · rw [h]
          exact Or.inl (List.mem_cons_self _ _)
        · rcases ih kv h with h1 | h1
          · exact Or.inl (List.mem_cons_of_mem _ h1)
          · exact Or.inr h1

theorem alistGet_mem {α : Type} (l : List (String × α)) (k : String) (v : α)
    (h : alistGet l k = some v) : (k, v) ∈ l := by
  induction l with
  | nil => exact absurd h (by simp [alistGet])
  | cons kv0 rest ih =>
    cases kv0 with
    | mk k0 v0 =>
      by_cases h0 : (k0 == k) = true
      · rw [alistGet, if_pos h0] at h
        have hv : v0 = v := by injection h
        rw [← eq_of_beq h0, ← hv]
        exact List.mem_cons_self _ _
      · rw [alistGet, if_neg h0] at h
        exact List.mem_cons_of_mem _ (ih h)

theorem envValue_goodField (setting value : String) :
    goodField (setting, envValue setting value) := by
  unfold goodField envValue
  by_cases hp : setting = "port"
  · refine ⟨fun h => absurd hp h, fun _ => ?_⟩
    rw [if_pos (by rw [hp]; rfl)]
    cases hpi : pyIntParse value with
    | some n => exact Or.inl ⟨n, rfl, value, hpi⟩
    | none => exact Or.inr ⟨value, rfl, hpi⟩
  · refine ⟨fun _ => ?_, fun h => absurd h hp⟩
    rw [if_neg (by rw [beq_eq_false_iff_ne.mpr hp]; simp)]
    exact ⟨value, rfl⟩

theorem goodConfig_set (c : Config) (k : String) (v : PyVal)
    (hc : goodConfig c) (hkv : goodField (k, v)) : goodConfig (alistSet c k v) := by
  intro kv hmem
  rcases alistSet_mem c k v kv hmem with h | h
  · exact hc kv h
  · rw [h]
    exact hkv

theorem goodVars_envStep (dbVars : List (String × Config)) (kv : String × String)
    (h : goodVars dbVars) : goodVars (envStep dbVars kv) := by
  unfold envStep
  by_cases hstart : strStartsWith kv.1 "DB_" = true
  · rw [if_pos hstart]
    cases hsp : pySplitUnderscore kv.1 with
    | nil => exact h
    | cons a tail =>
      cases tail with
      | nil => exact h
      | cons p1 tail2 =>
        cases tail2 with
        | nil => exact h
        | cons s1 srest =>
          intro nc hnc
          rcases alistSet_mem dbVars (pyLower p1) _ nc hnc with h1 | h1
          · exact h nc h1
          · rw [h1]
            apply goodConfig_set
            · cases hb : alistGet dbVars (pyLower p1) with
              | some c0 =>
                have := h (pyLower p1, c0) (alistGet_mem dbVars (pyLower p1) c0 hb)
                exact this
              | none =>
                intro kv2 hkv2
                exact absurd hkv2 (List.not_mem_nil kv2)
            · exact envValue_goodField _ kv.2
  · rw [Bool.not_eq_true] at hstart
    rw [hstart]
    simp only [Bool.false_eq_true, if_false]
    exact h

theorem goodVars_foldl (env : List (String × String)) :
    ∀ init, goodVars init → goodVars (env.foldl envStep init) := by
  induction env with
  | nil => intro init h; exact h
  | cons kv rest ih =>
    intro init h
    rw [List.foldl_cons]
    exact ih _ (goodVars_envStep init kv h)

/-! ## Claim C8: environment loading -/
/-- C8 counterexample: the numeric-looking value `30` of the non-`port`
setting `timeout` is loaded as the string `30`, not coerced to an integer —
only the `port` setting is coerced. -/
theorem load_from_environment_counterexample :
    load_from_environment [("DB_A_DATABASE_TYPE", "sqlite"), ("DB_A_TIMEOUT", "30")]
      = [("a", [("database_type", PyVal.str "sqlite"), ("timeout", PyVal.str "30")])] ∧
    pyIntParse "30" = some 30 ∧
    PyVal.str "30" ≠ PyVal.int 30 := by decide

/-- C8 (amended): the environment loader groups `DB_<name>_<setting>` keys
by lower-cased name with lower-cased settings, discards entirely every group
lacking a `database_type` setting, and coerces only the `port` setting to an
integer (when its value parses as one) — every other setting keeps its
string value, numeric-looking or not. -/
theorem load_from_environment_characterization (env : List (String × String)) :
    ∀ nc ∈ load_from_environment env,
      (alistGet nc.2 "database_type").isSome = true ∧
      ∀ kv ∈ nc.2,
        (kv.1 ≠ "port" → ∃ s, kv.2 = PyVal.str s) ∧
        (kv.1 = "port" →
          (∃ n, kv.2 = PyVal.int n ∧ ∃ s, pyIntParse s = some n) ∨
          (∃ s, kv.2 = PyVal.str s ∧ pyIntParse s = Option.none)) := by
  intro nc hnc
  unfold load_from_environment at hnc
  rcases List.mem_filter.mp hnc with ⟨hmem, hpred⟩
  refine ⟨hpred, ?_⟩
  have hgood := goodVars_foldl env []
    (by intro nc0 h0; exact absurd h0 (List.not_mem_nil nc0))
  exact hgood nc hmem

/-- C8 witness: a concrete environment with a parseable `port` loads it as
an integer, inside a group that carries `database_type`. -/
theorem load_from_environment_characterization_witness :
    (alistGet cPortConfig "database_type").isSome = true ∧
    ((("port" : String) ≠ "port" → ∃ s, PyVal.int 5432 = PyVal.str s) ∧
      (("port" : String) = "port" →
        (∃ n, PyVal.int 5432 = PyVal.int n ∧ ∃ s, pyIntParse s = some n) ∨
        (∃ s, PyVal.int 5432 = PyVal.str s ∧ pyIntParse s = Option.none))) := by
  have h := load_from_environment_characterization
    [("DB_A_DATABASE_TYPE", "sqlite"), ("DB_A_PORT", "5432")]
    ("a", cPortConfig) (by decide)
  exact ⟨h.1, h.2 ("port", PyVal.int 5432) (by decide)⟩

end MCPDB
